import Mathlib

/-!
# Verification of the TTS-D3 sampling utilities

Shallow embedding of the three Python source files of the repository:

* `src/utils/sample_tts_files.py` — duration-bucket classifier, audio file
  indexer, folder/bucket index, per-folder stratified sampler, sampling driver;
* `src/utils/audio_distribution.py` — the report writer's bucket classifier;
* `src/copy_samples.py` — the manifest-driven copy utility.

Python floats are modelled as rationals (`ℚ`): every comparison the code
performs on durations is an exact order comparison, so the ordering semantics
coincide.  Python `int` is `ℤ`, machine-word arithmetic in the pseudo-random
generator is taken modulo `2 ^ 64` explicitly.  Fallible code (`raise`,
`ValueError`) is modelled with `Except String`.  The filesystem and the audio
metadata probe are passed in as explicit read-only structures.  The standard
library pseudo-random generator `random.Random` is modelled as a deterministic
state (`ℕ`) threaded through the draws exactly where the source threads `rng`;
`random.sample` (uniform draw without replacement) is modelled by repeated
index draws from the live pool, which preserves the properties the source
relies on: determinism, exact count, draws without replacement.
-/

namespace sample_tts_files

/-- `AUDIO_EXTENSIONS` from `sample_tts_files.py` (a Python `set`; modelled as
a list, membership is all the code uses). -/
def AUDIO_EXTENSIONS : List String := [".wav", ".flac", ".mp3", ".m4a", ".ogg"]

/-- `BUCKET_DEFS` from `sample_tts_files.py`: label ↦ (low inclusive, high
exclusive or `none` for open-ended), in source (insertion) order. -/
def BUCKET_DEFS : List (String × ℚ × Option ℚ) :=
  [ ("[0, 1)",   0, some 1),
    ("[1, 5)",   1, some 5),
    ("[5, 10)",  5, some 10),
    ("[10, 15)", 10, some 15),
    ("[15, 20)", 15, some 20),
    ("[20, 25)", 20, some 25),
    ("[25, 30)", 25, some 30),
    ("[30+)",    30, none) ]

/-- The loop body of `assign_bucket`: scan the bucket definitions in order,
return the first matching label. -/
def assignBucketAux : List (String × ℚ × Option ℚ) → ℚ → Option String
  | [], _ => none
  | (name, lo, hi) :: rest, duration =>
    match hi with
    | none => if lo ≤ duration then some name else assignBucketAux rest duration
    | some h =>
        if lo ≤ duration ∧ duration < h then some name
        else assignBucketAux rest duration

/-- `assign_bucket` from `sample_tts_files.py`. -/
def assign_bucket (duration : ℚ) : Option String :=
  assignBucketAux BUCKET_DEFS duration

/-- Membership of a duration in one bucket range (the condition tested by the
loop of `assign_bucket`). -/
def inRange (d : ℚ) : ℚ × Option ℚ → Prop
  | (lo, none) => lo ≤ d
  | (lo, some hi) => lo ≤ d ∧ d < hi

end sample_tts_files

namespace audio_distribution

/-- `BUCKETS` from `audio_distribution.py`: (low, high) pairs, `none` standing
for `float('inf')` on the last entry. -/
def BUCKETS : List (ℕ × Option ℕ) :=
  [ (0, some 1), (1, some 5), (5, some 10), (10, some 15),
    (15, some 20), (20, some 25), (25, some 30), (30, none) ]

/-- The f-string label rendering of `audio_distribution.assign_bucket`
(`f"[{low}+)"` for the infinite bucket, `f"[{low}, {high})"` otherwise). -/
def bucketLabel (low : ℕ) (hi : Option ℕ) : String :=
  match hi with
  | none => "[" ++ toString low ++ "+)"
  | some h => "[" ++ toString low ++ ", " ++ toString h ++ ")"

/-- Loop body of `audio_distribution.assign_bucket`.  For the `(30, inf)`
entry the source condition `low <= duration < inf` reduces to
`low <= duration` on every finite duration, which is how it is modelled. -/
def assignBucketAux : List (ℕ × Option ℕ) → ℚ → String
  | [], _ => "UNBUCKETED"
  | (low, hi) :: rest, duration =>
    match hi with
    | none =>
        if (low : ℚ) ≤ duration then bucketLabel low none
        else assignBucketAux rest duration
    | some h =>
        if (low : ℚ) ≤ duration ∧ duration < (h : ℚ) then bucketLabel low (some h)
        else assignBucketAux rest duration

/-- `assign_bucket` from `audio_distribution.py`. -/
def assign_bucket (duration : ℚ) : String :=
  assignBucketAux BUCKETS duration

end audio_distribution

/-- Helper (not from the source): the label of the half-open interval a
non-negative duration falls in, written as a direct case split.  Used as the
common evaluation target of both classifiers. -/
def refLabel (d : ℚ) : String :=
  if d < 1 then "[0, 1)"
  else if d < 5 then "[1, 5)"
  else if d < 10 then "[5, 10)"
  else if d < 15 then "[10, 15)"
  else if d < 20 then "[15, 20)"
  else if d < 25 then "[20, 25)"
  else if d < 30 then "[25, 30)"
  else "[30+)"

/-! ## Path helpers (models of the `os.path` functions the sources call)

The scripts call `os.path.join`, `os.path.splitext`, `os.path.normpath`,
`os.path.relpath`.  They are modelled here with the POSIX separator `/`
following the CPython `posixpath` implementations. -/

/-- Model of two-argument `os.path.join` (posixpath) on character lists:
an absolute second argument wins; otherwise append, inserting a separator
unless the first part is empty or already ends in one. -/
def pjoinL (a b : List Char) : List Char :=
  if b.head? = some '/' then b
  else if a = [] ∨ a.getLast? = some '/' then a ++ b
  else a ++ '/' :: b

/-- Model of two-argument `os.path.join` (posixpath). -/
def pjoin (a b : String) : String :=
  String.mk (pjoinL a.toList b.toList)

/-- Python `str.split(sep)` for a one-character separator (accumulator is the
current piece, reversed). -/
def splitOnCharAux (sep : Char) : List Char → List Char → List (List Char)
  | [], cur => [cur.reverse]
  | c :: rest, cur =>
      if c = sep then cur.reverse :: splitOnCharAux sep rest []
      else splitOnCharAux sep rest (c :: cur)

/-- Python `str.split(sep)` for a one-character separator. -/
def splitOnChar (l : List Char) (sep : Char) : List (List Char) :=
  splitOnCharAux sep l []

/-- Join components with `/`. -/
def joinWithSlash : List (List Char) → List Char
  | [] => []
  | [x] => x
  | x :: rest => x ++ '/' :: joinWithSlash rest

/-- `str.replace(old, new)` for one-character patterns. -/
def replaceChar (l : List Char) (a b : Char) : List Char :=
  l.map (fun c => if c = a then b else c)

/-- Index of the last occurrence of `c` in `l` (scan accumulating the latest
hit), or `none`. -/
def lastIdxOfAux (c : Char) : List Char → ℕ → Option ℕ → Option ℕ
  | [], _, best => best
  | x :: rest, i, best =>
      lastIdxOfAux c rest (i + 1) (if x = c then some i else best)

/-- Index of the last occurrence of `c` in `l`, or `none`. -/
def lastIdxOf (l : List Char) (c : Char) : Option ℕ :=
  lastIdxOfAux c l 0 none

/-- Model of `os.path.splitext` (CPython `genericpath._splitext` with
separator `/`): split at the last dot that lies after the last separator,
unless the whole basename up to that dot consists of dots. -/
def splitextL (l : List Char) : List Char × List Char :=
  let sepIndex : ℤ := match lastIdxOf l '/' with | none => -1 | some i => (i : ℤ)
  let dotIndex : ℤ := match lastIdxOf l '.' with | none => -1 | some i => (i : ℤ)
  if sepIndex < dotIndex then
    let filenameIndex := (sepIndex + 1).toNat
    let d := dotIndex.toNat
    if ((l.drop filenameIndex).take (d - filenameIndex)).any (fun c => c ≠ '.') then
      (l.take d, l.drop d)
    else (l, [])
  else (l, [])

/-- `os.path.splitext` on strings. -/
def splitext (s : String) : String × String :=
  let p := splitextL s.toList
  (String.mk p.1, String.mk p.2)

/-- Model of `os.path.normpath` (posixpath) on character lists: collapse
separators and `.`, resolve `..` against preceding components, preserve one
or two leading slashes. -/
def normpathL (l : List Char) : List Char :=
  if l = [] then ['.']
  else
    let initialSlashes : ℕ :=
      match l with
      | '/' :: '/' :: '/' :: _ => 1
      | '/' :: '/' :: _ => 2
      | '/' :: _ => 1
      | _ => 0
    let comps := splitOnChar l '/'
    let newComps := comps.foldl (fun acc comp =>
      if comp = [] ∨ comp = ['.'] then acc
      else if comp ≠ ['.', '.'] ∨ (initialSlashes = 0 ∧ acc = []) ∨
              (acc.getLast? = some ['.', '.']) then acc ++ [comp]
      else acc.dropLast) []
    let res := List.replicate initialSlashes '/' ++ joinWithSlash newComps
    if res = [] then ['.'] else res

/-- Model of `os.path.normpath` (posixpath). -/
def normpath (p : String) : String :=
  String.mk (normpathL p.toList)

/-- Length of the longest common component run of two component lists. -/
def commonLen : List (List Char) → List (List Char) → ℕ
  | a :: as, b :: bs => if a = b then commonLen as bs + 1 else 0
  | _, _ => 0

/-- Model of `os.path.relpath` (posixpath), assuming both arguments denote
paths from a common base (the script always passes a file under `start`). -/
def relpath (path start : String) : String :=
  let pc := (splitOnChar (normpathL path.toList) '/').filter (fun c => c ≠ [])
  let sc := (splitOnChar (normpathL start.toList) '/').filter (fun c => c ≠ [])
  let i := commonLen pc sc
  let rel := List.replicate (sc.length - i) ['.', '.'] ++ pc.drop i
  if rel = [] then "." else String.mk (joinWithSlash rel)

namespace sample_tts_files

/-! ## Data structures and utilities of `sample_tts_files.py` -/

/-- `FileInfo` dataclass. -/
structure FileInfo where
  folder : String
  path : String
  rel_path : String
  duration : ℚ
  bucket : Option String
deriving DecidableEq, Repr

/-- One cell of the sampling-plan table, as `pandas` hands it to the script:
`nan` is a missing value (`pd.isna` is true exactly of it), `num` a numeric
value, `str` an uninterpreted string value. -/
inductive Cell where
  | nan : Cell
  | num (q : ℚ) : Cell
  | str (s : String) : Cell
deriving DecidableEq, Repr

/-- One row of the loaded sampling plan: the `Folder` value (the script reads
it with `str(row["Folder"])`) and the remaining columns as an association
list column-name ↦ cell; an absent column is an absent key. -/
structure PlanRow where
  folder : String
  cells : List (String × Cell)
deriving DecidableEq, Repr

/-- Column lookup in a plan row (`col in folder_row.index` + `folder_row[col]`). -/
def lookupCell (row : PlanRow) (col : String) : Option Cell :=
  match row.cells.find? (fun p => decide (p.1 = col)) with
  | none => none
  | some p => some p.2

/-- `pd.isna` on a cell. -/
def cellIsNa : Cell → Bool
  | Cell.nan => true
  | _ => false

/-- Truncation of a rational toward zero: what Python `int()` does to a float. -/
def ratTrunc (q : ℚ) : ℤ := q.num.tdiv (q.den : ℤ)

/-- Digits-to-number accumulator for `pyIntStr`. -/
def digitsToNat (s : List Char) : ℕ :=
  s.foldl (fun a c => 10 * a + (c.toNat - 48)) 0

/-- ASCII whitespace as stripped by Python `int()`. -/
def isPySpace (c : Char) : Bool :=
  c = ' ' ∨ c = '\t' ∨ c = '\n' ∨ c = '\r'

/-- Strip leading and trailing whitespace from a character list. -/
def stripChars (l : List Char) : List Char :=
  ((l.dropWhile isPySpace).reverse.dropWhile isPySpace).reverse

/-- Model of Python `int(s)` on a string: strip whitespace, optional sign,
then decimal digits; anything else raises `ValueError`. -/
def pyIntStr (s : String) : Except String ℤ :=
  let t := stripChars s.toList
  let sd : ℤ × List Char :=
    match t with
    | '-' :: rest => (-1, rest)
    | '+' :: rest => (1, rest)
    | _ => (1, t)
  if sd.2 ≠ [] ∧ sd.2.all Char.isDigit then
    Except.ok (sd.1 * (digitsToNat sd.2 : ℤ))
  else Except.error ("invalid literal for int() with base 10: " ++ s)

/-- Model of Python `int(cell)`: truncate a number, parse a string, raise on
`NaN` (the script only calls it behind a `pd.isna` guard). -/
def pyIntOfCell : Cell → Except String ℤ
  | Cell.nan => Except.error "cannot convert float NaN to integer"
  | Cell.num q => Except.ok (ratTrunc q)
  | Cell.str s => pyIntStr s

/-- The read-only environment of the sampler: `os.path.isdir`, the full paths
produced by `os.walk` under a directory (in walk order), and the
`soundfile.info` probe returning `(frames, samplerate)` or `none` when the
probe raises. -/
structure FS where
  isDir : String → Bool
  walkFiles : String → List String
  info : String → Option (ℕ × ℕ)

/-- `is_audio_file` from `sample_tts_files.py`. -/
def is_audio_file (path : String) : Bool :=
  let ext := (splitext path).2
  AUDIO_EXTENSIONS.contains ext.toLower

/-- `get_duration_seconds` from `sample_tts_files.py`: probe failure gives
`none`; a positive samplerate gives `frames / samplerate`. -/
def get_duration_seconds (fs : FS) (path : String) : Option ℚ :=
  match fs.info path with
  | none => none
  | some fr_sr =>
      if 0 < fr_sr.2 then some ((fr_sr.1 : ℚ) / (fr_sr.2 : ℚ)) else none

/-- `find_files_in_folder` from `sample_tts_files.py`: resolve the folder key
against the root; a non-directory yields `[]` (warning only); otherwise all
walked files with an audio extension. -/
def find_files_in_folder (fs : FS) (root folder_key : String) : List String :=
  let folder_path := pjoin root folder_key
  if fs.isDir folder_path = false then []
  else (fs.walkFiles folder_path).filter is_audio_file

/-- `load_sampling_plan` from `sample_tts_files.py`, at the level the code
acts on: the column-name list of the loaded table.  `group` is renamed to
`Folder` when `Folder` is absent; a plan with neither raises `ValueError`. -/
def load_sampling_plan (cols : List String) : Except String (List String) :=
  let cols2 :=
    if "group" ∈ cols ∧ "Folder" ∉ cols then
      cols.map (fun c => if c = "group" then "Folder" else c)
    else cols
  if "Folder" ∈ cols2 then Except.ok cols2
  else Except.error "Sampling plan must have a Folder or group column."

/-- The per-row body of `build_file_index`: every audio file found for the
row's folder whose duration probe succeeds, with its bucket and root-relative
path. -/
def indexFolder (fs : FS) (root : String) (row : PlanRow) : List FileInfo :=
  (find_files_in_folder fs root row.folder).filterMap (fun f =>
    match get_duration_seconds fs f with
    | none => none
    | some dur => some
        { folder := row.folder
          path := f
          rel_path := relpath f root
          duration := dur
          bucket := assign_bucket dur })

/-- `build_file_index` from `sample_tts_files.py`: concatenation of the
per-row file lists, in plan order. -/
def build_file_index (fs : FS) (root : String) : List PlanRow → List FileInfo
  | [] => []
  | row :: rest => indexFolder fs root row ++ build_file_index fs root rest

/-- Bucket list of `build_folder_bucket_map(...)[folder][bucket]`: the files
of the index with that folder key and that (non-`None`) bucket, in index
order (`setdefault`/`append` preserves insertion order). -/
def availOf (files : List FileInfo) (folder bucket : String) : List FileInfo :=
  files.filter (fun fi => decide (fi.folder = folder ∧ fi.bucket = some bucket))

/-- `folder_bucket_map.get(folder_key, {})` is non-empty iff some indexed file
has this folder key and a non-`None` bucket (records with bucket `None` are
skipped when the map is built). -/
def folderHasBuckets (files : List FileInfo) (folder : String) : Bool :=
  files.any (fun fi => decide (fi.folder = folder ∧ fi.bucket.isSome))

/-! ## The pseudo-random source

`random.Random(seed)` is modelled as a deterministic state of type `ℕ`
advanced by a 64-bit linear congruential step.  The exact bit stream of the
Mersenne Twister is irrelevant to every claim (which concern determinism,
counts, membership and distinctness); what is preserved is that each draw is
a pure function of the state and advances it. -/

/-- One 64-bit LCG step (Knuth's MMIX multiplier), standing in for the
Mersenne Twister state advance. -/
def lcgNext (s : ℕ) : ℕ :=
  (6364136223846793005 * s + 1442695040888963407) % (2 ^ 64)

/-- `random.Random._randbelow(n)`: next value in `[0, n)` plus the advanced
state. -/
def randbelow (s n : ℕ) : ℕ × ℕ :=
  let s2 := lcgNext s
  (s2 % n, s2)

/-- `random.Random(seed)`: the generator state is a pure function of the
seed, built once. -/
def mkRng (seed : ℕ) : ℕ := seed

/-- Model of `rng.sample(pool, k)`: `k` draws without replacement — each step
draws an index below the live pool size, takes that element and removes it
from the pool.  (CPython swaps the chosen slot with the last live slot; index
removal is the same draw-without-replacement discipline.) -/
def sampleDraw {α : Type} : ℕ → List α → ℕ → List α × ℕ
  | 0, _, s => ([], s)
  | k + 1, pool, s =>
    match pool.get? (randbelow s pool.length).1 with
    | none => ([], (randbelow s pool.length).2)
    | some x =>
      (x :: (sampleDraw k (pool.eraseIdx (randbelow s pool.length).1)
          (randbelow s pool.length).2).1,
       (sampleDraw k (pool.eraseIdx (randbelow s pool.length).1)
          (randbelow s pool.length).2).2)

/-- The per-bucket body of the selection loop of `sample_for_folder`
(lines 167–186): zero available → contribute nothing (warning);
`len(available) <= n_req` → take all, rng untouched; else `rng.sample`. -/
def sampleBucket (available : List FileInfo) (n_req : ℤ) (r : ℕ) :
    List FileInfo × ℕ :=
  if available.length = 0 then ([], r)
  else if (available.length : ℤ) ≤ n_req then (available, r)
  else sampleDraw n_req.toNat available r

/-- The `requested` map construction of `sample_for_folder` (lines 159–165):
scan the fixed bucket labels in `BUCKET_DEFS` order; a present column
contributes `int(value)` unless `pd.isna(value)` (then `0`); only positive
counts are kept.  `int()` of a non-numeric string raises. -/
def buildRequestedAux (row : PlanRow) :
    List (String × ℚ × Option ℚ) → List (String × ℤ) →
    Except String (List (String × ℤ))
  | [], acc => Except.ok acc
  | b :: rest, acc =>
    match lookupCell row ("Samples " ++ b.1) with
    | none => buildRequestedAux row rest acc
    | some c =>
      match (if cellIsNa c then Except.ok 0 else pyIntOfCell c :
          Except String ℤ) with
      | Except.error e => Except.error e
      | Except.ok n =>
          if 0 < n then buildRequestedAux row rest (acc ++ [(b.1, n)])
          else buildRequestedAux row rest acc

/-- The `requested` association list of `sample_for_folder`, in fixed bucket
order. -/
def buildRequested (row : PlanRow) : Except String (List (String × ℤ)) :=
  buildRequestedAux row BUCKET_DEFS []

/-- `sample_for_folder` from `sample_tts_files.py`: build the request map,
then fold the per-bucket selection over it in order, threading the rng. -/
def sample_for_folder (folder : String) (row : PlanRow)
    (folder_buckets : String → List FileInfo) (r : ℕ) :
    Except String (List FileInfo × ℕ) :=
  match buildRequested row with
  | Except.error e => Except.error e
  | Except.ok req =>
      Except.ok (req.foldl (fun st p =>
        let sr := sampleBucket (folder_buckets p.1) p.2 st.2
        (st.1 ++ sr.1, sr.2)) ([], r))

/-- `int(row["Target Samples"])` guarded by presence and `pd.isna`
(line 203): absent or NaN gives `None`; otherwise `int()` (which can raise). -/
def targetOf (row : PlanRow) : Except String (Option ℤ) :=
  match lookupCell row "Target Samples" with
  | none => Except.ok none
  | some c =>
      if cellIsNa c then Except.ok none
      else match pyIntOfCell c with
        | Except.error e => Except.error e
        | Except.ok n => Except.ok (some n)

/-- The key the driver deduplicates on: `(fi.folder, fi.path)`. -/
def keyOf (fi : FileInfo) : String × String := (fi.folder, fi.path)

/-- Python `dict` assignment `unique_selected[key] = fi`: replace the value
at an existing key in place, else append. -/
def insertSel : List ((String × String) × FileInfo) → FileInfo →
    List ((String × String) × FileInfo)
  | [], fi => [(keyOf fi, fi)]
  | p :: rest, fi =>
      if p.1 = keyOf fi then (p.1, fi) :: rest
      else p :: insertSel rest fi

/-- The `unique_selected` dict after inserting every selected file in order. -/
def dedupAccum (l : List FileInfo) : List ((String × String) × FileInfo) :=
  l.foldl insertSel []

/-- `list(unique_selected.values())`. -/
def dedupSelected (l : List FileInfo) : List FileInfo :=
  (dedupAccum l).map (fun p => p.2)

/-- Dict lookup on the accumulator (first entry with the key; keys are
pairwise distinct by construction). -/
def lookupKey (k : String × String) :
    List ((String × String) × FileInfo) → Option FileInfo
  | [] => none
  | p :: rest => if p.1 = k then some p.2 else lookupKey k rest

/-- One line of the output CSV (`writer.writerow`), duration rounded to 3
decimal places. -/
structure ManifestRow where
  folder : String
  rel_path : String
  full_path : String
  duration_sec : ℚ
  bucket : Option String
deriving DecidableEq, Repr

/-- Round-half-to-even of a rational to an integer (Python `round`). -/
def roundHalfEven (q : ℚ) : ℤ :=
  let f := ⌊q⌋
  let r := q - (f : ℚ)
  if r < 1 / 2 then f
  else if 1 / 2 < r then f + 1
  else if f % 2 = 0 then f else f + 1

/-- `round(x, 3)`. -/
def pyRound3 (q : ℚ) : ℚ := (roundHalfEven (q * 1000) : ℚ) / 1000

/-- The manifest row written for one selected file. -/
def toManifestRow (fi : FileInfo) : ManifestRow :=
  { folder := fi.folder
    rel_path := fi.rel_path
    full_path := fi.path
    duration_sec := pyRound3 fi.duration
    bucket := fi.bucket }

/-- The per-row loop of `run_sampling` (lines 201–217): resolve the optional
target (its `int()` can raise), skip folders without bucketed files, else
sample and accumulate, threading the rng left to right through the plan. -/
def driverLoop (files : List FileInfo) :
    List PlanRow → List FileInfo → ℕ → Except String (List FileInfo)
  | [], acc, _ => Except.ok acc
  | row :: rest, acc, r =>
    match targetOf row with
    | Except.error e => Except.error e
    | Except.ok _ =>
      if folderHasBuckets files row.folder then
        match sample_for_folder row.folder row (availOf files row.folder) r with
        | Except.error e => Except.error e
        | Except.ok sr => driverLoop files rest (acc ++ sr.1) sr.2
      else driverLoop files rest acc r

/-- `run_sampling` given an already-created generator state: index, sample
every row in plan order, deduplicate, render the manifest rows. -/
def runSamplingFromRng (plan : List PlanRow) (fs : FS) (root : String)
    (rng : ℕ) : Except String (List ManifestRow) :=
  let files := build_file_index fs root plan
  match driverLoop files plan [] rng with
  | Except.error e => Except.error e
  | Except.ok sel => Except.ok ((dedupSelected sel).map toManifestRow)

/-- `run_sampling` from `sample_tts_files.py` (after the plan is loaded):
the generator is created exactly once from the seed, then consumed in plan
order. -/
def run_sampling (plan : List PlanRow) (fs : FS) (root : String) (seed : ℕ) :
    Except String (List ManifestRow) :=
  runSamplingFromRng plan fs root (mkRng seed)

end sample_tts_files

namespace copy_samples

/-- The filesystem as the copy utility sees it: `os.path.isfile`. -/
structure CFS where
  isFile : String → Bool

/-- One manifest row as consumed by `copy_samples.py` (the required columns). -/
structure CsvRow where
  rel_path : String
  full_path : String
deriving DecidableEq, Repr

/-- `os.sep` in the POSIX path model. -/
def osSep : Char := '/'

/-- `copy_file` from `copy_samples.py`: a missing source is skipped with a
warning and reports `False`; otherwise the copy is performed and reported.
The copies performed are returned as `(src, dst)` actions. -/
def copy_file (fs : CFS) (src dst : String) : Bool × List (String × String) :=
  if fs.isFile src then (true, [(src, dst)]) else (false, [])

/-- The loop body of `main` (lines 61–87) for one manifest row: normalize the
source path, build the destination from `rel_path`, copy the audio counting
on success, then independently look for the same-basename `.json` sidecar
and copy it counting on success.  Returns (audio count increment, json count
increment, copies performed). -/
def process_row (fs : CFS) (dest_root : String) (row : CsvRow) :
    ℕ × ℕ × List (String × String) :=
  let src_audio := normpath row.full_path
  let rel_norm :=
    String.mk (replaceChar (replaceChar row.rel_path.toList '/' osSep) '\\' osSep)
  let dest_audio := normpath (pjoin dest_root rel_norm)
  let audioCopy := copy_file fs src_audio dest_audio
  let src_json := (splitext src_audio).1 ++ ".json"
  let dest_json := (splitext dest_audio).1 ++ ".json"
  let jsonCopy :=
    if fs.isFile src_json then copy_file fs src_json dest_json
    else (false, [])
  ((if audioCopy.1 then 1 else 0), (if jsonCopy.1 then 1 else 0),
    audioCopy.2 ++ jsonCopy.2)

end copy_samples

/-! ## Theorems -/

open sample_tts_files

/-- Evaluation of the sampler's classifier on non-negative durations: it
returns the label of the containing interval. -/
lemma sample_assign_bucket_eval (d : ℚ) (h : 0 ≤ d) :
    sample_tts_files.assign_bucket d = some (refLabel d) := by
  simp only [sample_tts_files.assign_bucket, sample_tts_files.BUCKET_DEFS,
    sample_tts_files.assignBucketAux, refLabel]
  rcases lt_or_le d 1 with h1 | h1
  · rw [if_pos ⟨h, h1⟩, if_pos h1]
  rw [if_neg (by rintro ⟨-, hh⟩; linarith), if_neg (not_lt.2 h1)]
  rcases lt_or_le d 5 with h2 | h2
  · rw [if_pos ⟨h1, h2⟩, if_pos h2]
  rw [if_neg (by rintro ⟨-, hh⟩; linarith), if_neg (not_lt.2 h2)]
  rcases lt_or_le d 10 with h3 | h3
  · rw [if_pos ⟨h2, h3⟩, if_pos h3]
  rw [if_neg (by rintro ⟨-, hh⟩; linarith), if_neg (not_lt.2 h3)]
  rcases lt_or_le d 15 with h4 | h4
  · rw [if_pos ⟨h3, h4⟩, if_pos h4]
  rw [if_neg (by rintro ⟨-, hh⟩; linarith), if_neg (not_lt.2 h4)]
  rcases lt_or_le d 20 with h5 | h5
  · rw [if_pos ⟨h4, h5⟩, if_pos h5]
  rw [if_neg (by rintro ⟨-, hh⟩; linarith), if_neg (not_lt.2 h5)]
  rcases lt_or_le d 25 with h6 | h6
  · rw [if_pos ⟨h5, h6⟩, if_pos h6]
  rw [if_neg (by rintro ⟨-, hh⟩; linarith), if_neg (not_lt.2 h6)]
  rcases lt_or_le d 30 with h7 | h7
  · rw [if_pos ⟨h6, h7⟩, if_pos h7]
  rw [if_neg (by rintro ⟨-, hh⟩; linarith), if_neg (not_lt.2 h7), if_pos h7]

/-- Evaluation of the report writer's classifier on non-negative durations:
it returns the same interval label. -/
lemma audio_assign_bucket_eval (d : ℚ) (h : 0 ≤ d) :
    audio_distribution.assign_bucket d = refLabel d := by
  simp only [audio_distribution.assign_bucket, audio_distribution.BUCKETS,
    audio_distribution.assignBucketAux, audio_distribution.bucketLabel,
    refLabel, Nat.cast_ofNat, Nat.cast_zero, Nat.cast_one]
  rcases lt_or_le d 1 with h1 | h1
  · rw [if_pos ⟨h, h1⟩, if_pos h1]; rfl
  rw [if_neg (by rintro ⟨-, hh⟩; linarith), if_neg (not_lt.2 h1)]
  rcases lt_or_le d 5 with h2 | h2
  · rw [if_pos ⟨h1, h2⟩, if_pos h2]; rfl
  rw [if_neg (by rintro ⟨-, hh⟩; linarith), if_neg (not_lt.2 h2)]
  rcases lt_or_le d 10 with h3 | h3
  · rw [if_pos ⟨h2, h3⟩, if_pos h3]; rfl
  rw [if_neg (by rintro ⟨-, hh⟩; linarith), if_neg (not_lt.2 h3)]
  rcases lt_or_le d 15 with h4 | h4
  · rw [if_pos ⟨h3, h4⟩, if_pos h4]; rfl
  rw [if_neg (by rintro ⟨-, hh⟩; linarith), if_neg (not_lt.2 h4)]
  rcases lt_or_le d 20 with h5 | h5
  · rw [if_pos ⟨h4, h5⟩, if_pos h5]; rfl
  rw [if_neg (by rintro ⟨-, hh⟩; linarith), if_neg (not_lt.2 h5)]
  rcases lt_or_le d 25 with h6 | h6
  · rw [if_pos ⟨h5, h6⟩, if_pos h6]; rfl
  rw [if_neg (by rintro ⟨-, hh⟩; linarith), if_neg (not_lt.2 h6)]
  rcases lt_or_le d 30 with h7 | h7
  · rw [if_pos ⟨h6, h7⟩, if_pos h7]; rfl
  rw [if_neg (by rintro ⟨-, hh⟩; linarith), if_neg (not_lt.2 h7), if_pos h7]; rfl

/-- The reference label always is one of the 8 fixed labels. -/
lemma refLabel_mem (d : ℚ) :
    refLabel d ∈ sample_tts_files.BUCKET_DEFS.map (fun b => b.1) := by
  unfold refLabel
  split_ifs <;> simp [sample_tts_files.BUCKET_DEFS]

/-- No two distinct bucket ranges contain the same duration. -/
lemma bucket_disjoint (d : ℚ) :
    ∀ b1, b1 ∈ sample_tts_files.BUCKET_DEFS →
    ∀ b2, b2 ∈ sample_tts_files.BUCKET_DEFS →
    sample_tts_files.inRange d b1.2 → sample_tts_files.inRange d b2.2 →
    b1 = b2 := by
  intro b1 h1 b2 h2 r1 r2
  simp only [sample_tts_files.BUCKET_DEFS] at h1 h2
  fin_cases h1 <;> fin_cases h2 <;>
    simp_all [sample_tts_files.inRange] <;> linarith

/-- Every non-negative duration lies in some bucket range. -/
lemma bucket_cover (d : ℚ) (h : 0 ≤ d) :
    ∃ b, b ∈ sample_tts_files.BUCKET_DEFS ∧ sample_tts_files.inRange d b.2 := by
  rcases lt_or_le d 1 with h1 | h1
  · exact ⟨("[0, 1)", 0, some 1), by simp [sample_tts_files.BUCKET_DEFS],
      ⟨h, h1⟩⟩
  rcases lt_or_le d 5 with h2 | h2
  · exact ⟨("[1, 5)", 1, some 5), by simp [sample_tts_files.BUCKET_DEFS],
      ⟨h1, h2⟩⟩
  rcases lt_or_le d 10 with h3 | h3
  · exact ⟨("[5, 10)", 5, some 10), by simp [sample_tts_files.BUCKET_DEFS],
      ⟨h2, h3⟩⟩
  rcases lt_or_le d 15 with h4 | h4
  · exact ⟨("[10, 15)", 10, some 15), by simp [sample_tts_files.BUCKET_DEFS],
      ⟨h3, h4⟩⟩
  rcases lt_or_le d 20 with h5 | h5
  · exact ⟨("[15, 20)", 15, some 20), by simp [sample_tts_files.BUCKET_DEFS],
      ⟨h4, h5⟩⟩
  rcases lt_or_le d 25 with h6 | h6
  · exact ⟨("[20, 25)", 20, some 25), by simp [sample_tts_files.BUCKET_DEFS],
      ⟨h5, h6⟩⟩
  rcases lt_or_le d 30 with h7 | h7
  · exact ⟨("[25, 30)", 25, some 30), by simp [sample_tts_files.BUCKET_DEFS],
      ⟨h6, h7⟩⟩
  exact ⟨("[30+)", 30, none), by simp [sample_tts_files.BUCKET_DEFS], h7⟩

/-- C1: for every duration `d ≥ 0`, `assign_bucket(d)` returns exactly one of
the 8 fixed bucket labels (never none); the 8 half-open ranges partition
`[0, ∞)` — every non-negative duration lies in exactly one range — and each
boundary value 1, 5, 10, 15, 20, 25, 30 is assigned to the upper bucket. -/
theorem c1_assign_bucket_partition :
    (∀ d : ℚ, 0 ≤ d → ∃ l, sample_tts_files.assign_bucket d = some l ∧
        l ∈ sample_tts_files.BUCKET_DEFS.map (fun b => b.1)) ∧
    (∀ d : ℚ, 0 ≤ d → ∃ b, b ∈ sample_tts_files.BUCKET_DEFS ∧
        sample_tts_files.inRange d b.2 ∧
        ∀ b2, b2 ∈ sample_tts_files.BUCKET_DEFS →
          sample_tts_files.inRange d b2.2 → b2 = b) ∧
    (sample_tts_files.assign_bucket 1 = some "[1, 5)" ∧
     sample_tts_files.assign_bucket 5 = some "[5, 10)" ∧
     sample_tts_files.assign_bucket 10 = some "[10, 15)" ∧
     sample_tts_files.assign_bucket 15 = some "[15, 20)" ∧
     sample_tts_files.assign_bucket 20 = some "[20, 25)" ∧
     sample_tts_files.assign_bucket 25 = some "[25, 30)" ∧
     sample_tts_files.assign_bucket 30 = some "[30+)") := by
  refine ⟨fun d h => ⟨refLabel d, sample_assign_bucket_eval d h, refLabel_mem d⟩,
    fun d h => ?_, ?_⟩
  · obtain ⟨b, hb, hr⟩ := bucket_cover d h
    exact ⟨b, hb, hr, fun b2 hb2 hr2 => bucket_disjoint d b2 hb2 b hb hr2 hr⟩
  refine ⟨?_, ?_, ?_, ?_, ?_, ?_, ?_⟩ <;>
    · rw [sample_assign_bucket_eval _ (by norm_num)]
      norm_num [refLabel]

/-- C1 witness: the theorem applied at the concrete duration `7/2`. -/
theorem c1_witness :
    (∃ l, sample_tts_files.assign_bucket (7 / 2) = some l ∧
        l ∈ sample_tts_files.BUCKET_DEFS.map (fun b => b.1)) ∧
    (∃ b, b ∈ sample_tts_files.BUCKET_DEFS ∧
        sample_tts_files.inRange (7 / 2) b.2 ∧
        ∀ b2, b2 ∈ sample_tts_files.BUCKET_DEFS →
          sample_tts_files.inRange (7 / 2) b2.2 → b2 = b) :=
  ⟨c1_assign_bucket_partition.1 (7 / 2) (by norm_num),
   c1_assign_bucket_partition.2.1 (7 / 2) (by norm_num)⟩

/-- C8: on every non-negative duration the report writer's classifier
(`audio_distribution.assign_bucket`) and the sampler's classifier
(`sample_tts_files.assign_bucket`) agree on the bucket label. -/
theorem c8_classifiers_agree (d : ℚ) (h : 0 ≤ d) :
    sample_tts_files.assign_bucket d =
      some (audio_distribution.assign_bucket d) := by
  rw [sample_assign_bucket_eval d h, audio_assign_bucket_eval d h]

/-- C8 witness: the two classifiers agree at the concrete duration `12`. -/
theorem c8_witness :
    sample_tts_files.assign_bucket 12 =
      some (audio_distribution.assign_bucket 12) :=
  c8_classifiers_agree 12 (by norm_num)


/-- The index drawn by `randbelow` is below a positive bound. -/
lemma randbelow_lt (s n : ℕ) (hn : 0 < n) : (randbelow s n).1 < n := by
  simp only [randbelow]
  exact Nat.mod_lt _ hn

/-- `rng.sample` returns exactly `k` elements when `k` does not exceed the
pool size. -/
lemma sampleDraw_length {α : Type} :
    ∀ (k : ℕ) (pool : List α) (s : ℕ), k ≤ pool.length →
      ((sampleDraw k pool s).1).length = k := by
  intro k
  induction k with
  | zero => intro pool s _; rfl
  | succ k ih =>
    intro pool s h
    have hn : 0 < pool.length := Nat.lt_of_lt_of_le (Nat.succ_pos k) h
    have hj : (randbelow s pool.length).1 < pool.length := randbelow_lt _ _ hn
    simp only [sampleDraw]
    rw [List.get?_eq_getElem?, List.getElem?_eq_getElem hj]
    simp only [List.length_cons]
    rw [ih]
    rw [List.length_eraseIdx]
    simp only [hj, if_pos]
    omega

/-- Every element returned by `rng.sample` comes from the pool. -/
lemma sampleDraw_mem {α : Type} :
    ∀ (k : ℕ) (pool : List α) (s : ℕ) (x : α),
      x ∈ (sampleDraw k pool s).1 → x ∈ pool := by
  intro k
  induction k with
  | zero => intro pool s x hx; simp [sampleDraw] at hx
  | succ k ih =>
    intro pool s x hx
    simp only [sampleDraw] at hx
    cases hget : pool.get? (randbelow s pool.length).1 with
    | none => rw [hget] at hx; simp at hx
    | some y =>
      rw [hget] at hx
      simp only [List.mem_cons] at hx
      rcases hx with rfl | hx
      · exact List.get?_mem hget
      · exact (List.eraseIdx_sublist pool (randbelow s pool.length).1).mem
          (ih _ _ _ hx)

/-- In a duplicate-free list, the element at an index does not survive the
removal of that index. -/
lemma get_not_mem_eraseIdx {α : Type} :
    ∀ (l : List α) (j : ℕ) (x : α), l.Nodup → l.get? j = some x →
      x ∉ l.eraseIdx j := by
  intro l
  induction l with
  | nil => intro j x _ hget; simp at hget
  | cons a t ih =>
    intro j x hnd hget
    cases j with
    | zero =>
      simp only [List.get?_cons_zero, Option.some.injEq] at hget
      subst hget
      simpa [List.eraseIdx_cons_zero] using (List.nodup_cons.1 hnd).1
    | succ j =>
      simp only [List.get?_cons_succ] at hget
      simp only [List.eraseIdx_cons_succ]
      intro hmem
      rcases List.mem_cons.1 hmem with rfl | hmem2
      · exact (List.nodup_cons.1 hnd).1 (List.get?_mem hget)
      · exact ih j x (List.nodup_cons.1 hnd).2 hget hmem2

/-- `rng.sample` on a duplicate-free pool returns pairwise distinct elements
(the draw is without replacement). -/
lemma sampleDraw_nodup {α : Type} :
    ∀ (k : ℕ) (pool : List α) (s : ℕ), pool.Nodup →
      ((sampleDraw k pool s).1).Nodup := by
  intro k
  induction k with
  | zero => intro pool s _; simp [sampleDraw]
  | succ k ih =>
    intro pool s hnd
    simp only [sampleDraw]
    cases hget : pool.get? (randbelow s pool.length).1 with
    | none => simp
    | some y =>
      have herase : (pool.eraseIdx (randbelow s pool.length).1).Nodup :=
        (List.eraseIdx_sublist pool (randbelow s pool.length).1).nodup hnd
      refine List.nodup_cons.2 ⟨?_, ih _ _ herase⟩
      intro hy
      exact get_not_mem_eraseIdx pool _ y hnd hget (sampleDraw_mem _ _ _ _ hy)

/-- C2: when a folder's bucket holds `N` available files and the plan
requests `K` with `0 < K < N`, `sample_for_folder` selects exactly `K` files
for that bucket, all drawn from the available list, pairwise distinct (drawn
without replacement), and the selection is a pure function of the generator
state: the same seed and inputs give the identical selection. -/
theorem c2_sample_without_replacement :
    ∀ (fname : String) (row : PlanRow) (b : String) (k : ℤ)
      (fb : String → List FileInfo) (r : ℕ),
      buildRequested row = Except.ok [(b, k)] →
      0 < k → k < ((fb b).length : ℤ) → (fb b).Nodup →
      ∃ sel r2, sample_for_folder fname row fb r = Except.ok (sel, r2) ∧
        sel.length = k.toNat ∧ (∀ x, x ∈ sel → x ∈ fb b) ∧ sel.Nodup ∧
        (∀ r3, r3 = r →
          sample_for_folder fname row fb r3 = sample_for_folder fname row fb r) := by
  intro fname row b k fb r hreq hk hlt hnd
  have hlen : 0 < (fb b).length := by
    have : (0 : ℤ) < ((fb b).length : ℤ) := lt_trans hk hlt
    exact_mod_cast this
  have hkn : k.toNat ≤ (fb b).length := by omega
  have hbkt : sampleBucket (fb b) k r = sampleDraw k.toNat (fb b) r := by
    unfold sampleBucket
    rw [if_neg (by omega), if_neg (not_le.2 hlt)]
  refine ⟨(sampleDraw k.toNat (fb b) r).1, (sampleDraw k.toNat (fb b) r).2,
    ?_, sampleDraw_length _ _ _ hkn, fun x hx => sampleDraw_mem _ _ _ _ hx,
    sampleDraw_nodup _ _ _ hnd, fun r3 hr3 => by rw [hr3]⟩
  unfold sample_for_folder
  rw [hreq]
  simp only [List.foldl, hbkt, List.nil_append]

/-- C2 witness: a concrete plan row requesting 1 file from the `[0, 1)`
bucket of a folder holding 2 distinct files. -/
theorem c2_witness :
    ∃ sel r2,
      sample_for_folder "f"
        ⟨"f", [("Samples [0, 1)", Cell.num 1)]⟩
        (fun _ => [⟨"f", "a.wav", "a.wav", 0, some "[0, 1)"⟩,
                   ⟨"f", "b.wav", "b.wav", 0, some "[0, 1)"⟩]) 42 =
        Except.ok (sel, r2) ∧
      sel.length = (1 : ℤ).toNat ∧
      (∀ x, x ∈ sel →
        x ∈ [(⟨"f", "a.wav", "a.wav", 0, some "[0, 1)"⟩ : FileInfo),
             ⟨"f", "b.wav", "b.wav", 0, some "[0, 1)"⟩]) ∧
      sel.Nodup ∧
      (∀ r3, r3 = 42 →
        sample_for_folder "f" ⟨"f", [("Samples [0, 1)", Cell.num 1)]⟩
          (fun _ => [⟨"f", "a.wav", "a.wav", 0, some "[0, 1)"⟩,
                     ⟨"f", "b.wav", "b.wav", 0, some "[0, 1)"⟩]) r3 =
        sample_for_folder "f" ⟨"f", [("Samples [0, 1)", Cell.num 1)]⟩
          (fun _ => [⟨"f", "a.wav", "a.wav", 0, some "[0, 1)"⟩,
                     ⟨"f", "b.wav", "b.wav", 0, some "[0, 1)"⟩]) 42) :=
  c2_sample_without_replacement "f" _ "[0, 1)" 1 _ 42 (by rfl)
    (by decide) (by decide) (by decide)

/-- C3: when a bucket's available count is at most the requested count the
whole available list is taken, the generator state is left untouched (no
randomness consumed), the selection is the same whatever the generator state
(hence identical across runs with different seeds), and a shortfall never
makes `sample_for_folder` raise. -/
theorem c3_take_all_no_randomness :
    ∀ (available : List FileInfo) (n : ℤ) (r : ℕ),
      (available.length : ℤ) ≤ n →
      sampleBucket available n r = (available, r) ∧
      (∀ r2 : ℕ,
        (sampleBucket available n r2).1 = (sampleBucket available n r).1) ∧
      (∀ (fname : String) (row : PlanRow) (fb : String → List FileInfo)
         (req : List (String × ℤ)), buildRequested row = Except.ok req →
         ∃ out, sample_for_folder fname row fb r = Except.ok out) := by
  intro available n r hle
  have hbkt : ∀ r2 : ℕ, sampleBucket available n r2 = (available, r2) := by
    intro r2
    unfold sampleBucket
    by_cases h0 : available.length = 0
    · rw [if_pos h0, List.length_eq_zero.1 h0]
    · rw [if_neg h0, if_pos hle]
  refine ⟨hbkt r, fun r2 => by rw [hbkt r2, hbkt r], ?_⟩
  intro fname row fb req hreq
  unfold sample_for_folder
  rw [hreq]
  exact ⟨_, rfl⟩

/-- C3 witness: one available file, five requested — all taken, state 7
untouched, and a concrete row never raises. -/
theorem c3_witness :
    sampleBucket [⟨"f", "a.wav", "a.wav", 0, some "[0, 1)"⟩] 5 7 =
      ([⟨"f", "a.wav", "a.wav", 0, some "[0, 1)"⟩], 7) ∧
    (∀ r2 : ℕ,
      (sampleBucket [⟨"f", "a.wav", "a.wav", 0, some "[0, 1)"⟩] 5 r2).1 =
      (sampleBucket [⟨"f", "a.wav", "a.wav", 0, some "[0, 1)"⟩] 5 7).1) ∧
    (∃ out, sample_for_folder "f" ⟨"f", [("Samples [0, 1)", Cell.num 5)]⟩
        (fun _ => []) 7 = Except.ok out) :=
  ⟨(c3_take_all_no_randomness _ 5 7 (by decide)).1,
   (c3_take_all_no_randomness _ 5 7 (by decide)).2.1,
   (c3_take_all_no_randomness [] 5 7 (by decide)).2.2 "f" _ (fun _ => [])
     [("[0, 1)", 5)] (by rfl)⟩

/-- C7: `load_sampling_plan` raises exactly when the plan has neither a
`Folder` nor a `group` column; a `group` column without `Folder` is renamed
to `Folder`; a successfully loaded plan always has a `Folder` column. -/
theorem c7_load_plan_columns :
    ∀ cols : List String,
      ((∃ e, load_sampling_plan cols = Except.error e) ↔
        ("Folder" ∉ cols ∧ "group" ∉ cols)) ∧
      (∀ out, load_sampling_plan cols = Except.ok out → "Folder" ∈ out) ∧
      (("group" ∈ cols ∧ "Folder" ∉ cols) →
        load_sampling_plan cols =
          Except.ok (cols.map (fun c => if c = "group" then "Folder" else c))) := by
  intro cols
  by_cases hf : "Folder" ∈ cols
  · have hcond : ¬ ("group" ∈ cols ∧ "Folder" ∉ cols) := fun h => h.2 hf
    unfold load_sampling_plan
    rw [if_neg hcond, if_pos hf]
    refine ⟨⟨fun ⟨e, he⟩ => absurd he (by simp), fun h => absurd hf h.1⟩,
      fun out hout => ?_, fun h => absurd hf h.2⟩
    cases hout
    exact hf
  · by_cases hg : "group" ∈ cols
    · have hmem :
          "Folder" ∈ cols.map (fun c => if c = "group" then "Folder" else c) :=
        List.mem_map.2 ⟨"group", hg, by simp⟩
      have hc : "group" ∈ cols ∧ "Folder" ∉ cols := ⟨hg, hf⟩
      unfold load_sampling_plan
      rw [if_pos hc, if_pos hmem]
      refine ⟨⟨fun ⟨e, he⟩ => absurd he (by simp), fun h => absurd hg h.2⟩,
        fun out hout => ?_, fun _ => rfl⟩
      cases hout
      exact hmem
    · have hcond : ¬ ("group" ∈ cols ∧ "Folder" ∉ cols) := fun h => hg h.1
      unfold load_sampling_plan
      rw [if_neg hcond, if_neg hf]
      exact ⟨⟨fun _ => ⟨hf, hg⟩, fun _ => ⟨_, rfl⟩⟩,
        fun out hout => absurd hout (by simp),
        fun h => absurd h.1 hg⟩

/-- C7 witness: a plan with only a legacy `group` column loads with `group`
renamed to `Folder`; a plan with neither column raises. -/
theorem c7_witness :
    load_sampling_plan ["group", "x"] = Except.ok ["Folder", "x"] ∧
    (∃ e, load_sampling_plan ["x"] = Except.error e) :=
  ⟨by
    have h := (c7_load_plan_columns ["group", "x"]).2.2 ⟨by decide, by decide⟩
    simpa using h,
   (c7_load_plan_columns ["x"]).1.2 ⟨by decide, by decide⟩⟩

/-- A successful column lookup returns the cell of some entry of the row. -/
lemma lookupCell_mem (row : PlanRow) (col : String) (c : Cell)
    (h : lookupCell row col = some c) :
    ∃ p, p ∈ row.cells ∧ p.2 = c := by
  unfold lookupCell at h
  cases hf : row.cells.find? (fun p => decide (p.1 = col)) with
  | none => rw [hf] at h; cases h
  | some p =>
    rw [hf] at h
    exact ⟨p, List.mem_of_find?_eq_some hf, by injection h⟩

/-- Characterization of the entries of a successful `requested` map: every
entry was produced from a present, non-NaN cell whose `int()` conversion
succeeded with a positive value. -/
lemma buildRequestedAux_mem (row : PlanRow) :
    ∀ (bs : List (String × ℚ × Option ℚ)) (acc req : List (String × ℤ)),
      buildRequestedAux row bs acc = Except.ok req →
      ∀ p, p ∈ req → p ∈ acc ∨
        (0 < p.2 ∧ ∃ c, lookupCell row ("Samples " ++ p.1) = some c ∧
          cellIsNa c = false ∧ pyIntOfCell c = Except.ok p.2) := by
  intro bs
  induction bs with
  | nil =>
    intro acc req h p hp
    cases h
    exact Or.inl hp
  | cons b rest ih =>
    intro acc req h p hp
    simp only [buildRequestedAux] at h
    split at h
    · exact ih acc req h p hp
    · rename_i c hl
      split at h
      · cases h
      · rename_i n heq
        by_cases hna : cellIsNa c = true
        · rw [if_pos hna] at heq
          have hn0 : n = 0 := by injection heq with h0; omega
          subst hn0
          simp only [lt_self_iff_false, if_false] at h
          exact ih acc req h p hp
        · rw [if_neg hna] at heq
          by_cases hn : 0 < n
          · rw [if_pos hn] at h
            rcases ih _ _ h p hp with hacc | hprop
            · rcases List.mem_append.1 hacc with hacc2 | hsing
              · exact Or.inl hacc2
              · simp only [List.mem_singleton] at hsing
                subst hsing
                exact Or.inr ⟨hn, c, hl, by simpa using hna, heq⟩
            · exact Or.inr hprop
          · rw [if_neg hn] at h
            exact ih acc req h p hp

/-- A row all of whose cells are NaN produces an empty request map with no
error (absent columns contribute nothing either). -/
lemma buildRequestedAux_nan (row : PlanRow)
    (hall : ∀ p, p ∈ row.cells → p.2 = Cell.nan) :
    ∀ (bs : List (String × ℚ × Option ℚ)) (acc : List (String × ℤ)),
      buildRequestedAux row bs acc = Except.ok acc := by
  intro bs
  induction bs with
  | nil => intro acc; rfl
  | cons b rest ih =>
    intro acc
    simp only [buildRequestedAux]
    cases hl : lookupCell row ("Samples " ++ b.1) with
    | none => exact ih acc
    | some c =>
      obtain ⟨p, hp, hpc⟩ := lookupCell_mem row _ c hl
      have hc : c = Cell.nan := hpc ▸ hall p hp
      subst hc
      simp only [cellIsNa, lt_self_iff_false, if_false]
      exact ih acc

/-- C6 counterexample: the claim says a non-numeric per-bucket `Samples`
value normalizes to "no request" rather than raising, but on a row whose
`Samples [5, 10)` cell holds the non-numeric string `"abc"` the request-map
construction of `sample_for_folder` raises `ValueError` (from `int("abc")`;
`pd.isna("abc")` is false, so the guard does not help). -/
theorem c6_counterexample :
    buildRequested ⟨"f", [("Samples [5, 10)", Cell.str "abc")]⟩ =
      Except.error "invalid literal for int() with base 10: abc" := by rfl

/-- C6 (amended): a per-bucket `Samples` cell that is absent or NaN
normalizes to "no request" for that bucket without an error, and every entry
of a successfully built request map comes from a present, non-NaN cell whose
`int()` conversion succeeded with a positive value — but a non-numeric
string cell raises `ValueError` instead of being skipped. -/
theorem c6_samples_normalization :
    (∀ (row : PlanRow) (req : List (String × ℤ)),
      buildRequested row = Except.ok req →
      ∀ p, p ∈ req → 0 < p.2 ∧
        ∃ c, lookupCell row ("Samples " ++ p.1) = some c ∧
          cellIsNa c = false ∧ pyIntOfCell c = Except.ok p.2) ∧
    (∀ row : PlanRow, (∀ p, p ∈ row.cells → p.2 = Cell.nan) →
      buildRequested row = Except.ok []) := by
  constructor
  · intro row req h p hp
    rcases buildRequestedAux_mem row _ [] req h p hp with habs | hprop
    · simp at habs
    · exact hprop
  · intro row hall
    exact buildRequestedAux_nan row hall _ []

/-- C6 witness: a numeric request cell yields a positive entry backed by its
cell; an all-NaN row yields the empty request map without error. -/
theorem c6_witness :
    (0 < (("[0, 1)", (2 : ℤ)) : String × ℤ).2 ∧
      ∃ c, lookupCell ⟨"f", [("Samples [0, 1)", Cell.num 2)]⟩
          ("Samples " ++ (("[0, 1)", (2 : ℤ)) : String × ℤ).1) = some c ∧
        cellIsNa c = false ∧ pyIntOfCell c = Except.ok (("[0, 1)", (2 : ℤ)) : String × ℤ).2) ∧
    buildRequested ⟨"f", [("Samples [0, 1)", Cell.nan)]⟩ = Except.ok [] :=
  ⟨c6_samples_normalization.1 ⟨"f", [("Samples [0, 1)", Cell.num 2)]⟩
      [("[0, 1)", 2)] (by rfl) ("[0, 1)", 2) (by simp),
   c6_samples_normalization.2 ⟨"f", [("Samples [0, 1)", Cell.nan)]⟩
      (by intro p hp; simp only [List.mem_singleton] at hp; subst hp; rfl)⟩

/-- Dict assignment and lookup: inserting `fi` makes its key map to `fi` and
leaves every other key unchanged (last write wins). -/
lemma lookup_insertSel :
    ∀ (m : List ((String × String) × FileInfo)) (fi : FileInfo)
      (k : String × String),
      lookupKey k (insertSel m fi) =
        if keyOf fi = k then some fi else lookupKey k m := by
  intro m
  induction m with
  | nil =>
    intro fi k
    simp only [insertSel, lookupKey]
  | cons p rest ih =>
    intro fi k
    simp only [insertSel]
    by_cases hp : p.1 = keyOf fi
    · simp only [if_pos hp, lookupKey]
      by_cases hk : keyOf fi = k
      · simp [hp, hk]
      · simp [hp, hk]
    · simp only [if_neg hp, lookupKey, ih fi k]
      by_cases hpk : p.1 = k
      · have hfk : ¬ keyOf fi = k := fun h => hp (h ▸ hpk)
        simp [hpk, hfk]
      · simp [hpk]

/-- Dict assignment on the key multiset: an existing key keeps the key list
unchanged, a new key is appended. -/
lemma keys_insertSel :
    ∀ (m : List ((String × String) × FileInfo)) (fi : FileInfo),
      (insertSel m fi).map (fun p => p.1) =
        if keyOf fi ∈ m.map (fun p => p.1) then m.map (fun p => p.1)
        else m.map (fun p => p.1) ++ [keyOf fi] := by
  intro m
  induction m with
  | nil => intro fi; simp [insertSel]
  | cons p rest ih =>
    intro fi
    simp only [insertSel]
    by_cases hp : p.1 = keyOf fi
    · simp [if_pos hp, hp]
    · simp only [if_neg hp, List.map_cons, ih fi]
      by_cases hmem : keyOf fi ∈ rest.map (fun p => p.1)
      · rw [if_pos hmem, if_pos (List.mem_cons.2 (Or.inr hmem))]
      · rw [if_neg hmem,
          if_neg (fun h => (List.mem_cons.1 h).elim
            (fun h2 => hp h2.symm) hmem)]
        simp

/-- Dict assignment preserves distinctness of keys. -/
lemma keys_insertSel_nodup (m : List ((String × String) × FileInfo))
    (fi : FileInfo) (h : (m.map (fun p => p.1)).Nodup) :
    ((insertSel m fi).map (fun p => p.1)).Nodup := by
  rw [keys_insertSel]
  by_cases hmem : keyOf fi ∈ m.map (fun p => p.1)
  · rwa [if_pos hmem]
  · rw [if_neg hmem]
    simp [List.nodup_append, h, hmem]

/-- Every entry of the dict after an assignment either was there before or
is the assigned pair. -/
lemma mem_insertSel :
    ∀ (m : List ((String × String) × FileInfo)) (fi : FileInfo) (p),
      p ∈ insertSel m fi → p ∈ m ∨ (p.1 = keyOf p.2 ∧ p.2 = fi) := by
  intro m
  induction m with
  | nil =>
    intro fi p hp
    simp only [insertSel, List.mem_singleton] at hp
    subst hp
    exact Or.inr ⟨rfl, rfl⟩
  | cons q rest ih =>
    intro fi p hp
    simp only [insertSel] at hp
    by_cases hq : q.1 = keyOf fi
    · rw [if_pos hq] at hp
      rcases List.mem_cons.1 hp with rfl | hp2
      · exact Or.inr ⟨hq, rfl⟩
      · exact Or.inl (List.mem_cons.2 (Or.inr hp2))
    · rw [if_neg hq] at hp
      rcases List.mem_cons.1 hp with rfl | hp2
      · exact Or.inl (List.mem_cons.2 (Or.inl rfl))
      · rcases ih fi p hp2 with hold | hnew
        · exact Or.inl (List.mem_cons.2 (Or.inr hold))
        · exact Or.inr hnew

/-- The accumulated `unique_selected` dict has pairwise distinct keys. -/
lemma dedupAccum_keys_nodup_aux :
    ∀ (l : List FileInfo) (m : List ((String × String) × FileInfo)),
      (m.map (fun p => p.1)).Nodup →
      ((l.foldl insertSel m).map (fun p => p.1)).Nodup := by
  intro l
  induction l with
  | nil => intro m h; exact h
  | cons fi t ih =>
    intro m h
    exact ih (insertSel m fi) (keys_insertSel_nodup m fi h)

/-- Every entry of the accumulated dict stores its own key and a value from
the input list. -/
lemma dedupAccum_mem_aux :
    ∀ (l : List FileInfo) (m : List ((String × String) × FileInfo)) (p),
      p ∈ l.foldl insertSel m →
      p ∈ m ∨ (p.1 = keyOf p.2 ∧ p.2 ∈ l) := by
  intro l
  induction l with
  | nil => intro m p hp; exact Or.inl hp
  | cons fi t ih =>
    intro m p hp
    rcases ih (insertSel m fi) p hp with hins | hnew
    · rcases mem_insertSel m fi p hins with hold | ⟨hk, hv⟩
      · exact Or.inl hold
      · exact Or.inr ⟨hk, hv ▸ List.mem_cons_self _ _⟩
    · exact Or.inr ⟨hnew.1, List.mem_cons.2 (Or.inr hnew.2)⟩

/-- Last write wins: after accumulating the whole selection, the dict maps
each key to the last selected file carrying that key. -/
lemma dedupAccum_last_write_wins :
    ∀ (l : List FileInfo) (k : String × String),
      lookupKey k (dedupAccum l) =
        (l.filter (fun fi => decide (keyOf fi = k))).getLast? := by
  intro l
  induction l using List.reverseRecOn with
  | nil => intro k; rfl
  | append_singleton t x ih =>
    intro k
    unfold dedupAccum
    rw [List.foldl_append]
    simp only [List.foldl]
    rw [lookup_insertSel, List.filter_append]
    by_cases hk : keyOf x = k
    · rw [if_pos hk]
      have hfx : List.filter (fun fi => decide (keyOf fi = k)) [x] = [x] := by
        simp [hk]
      rw [hfx]
      exact (List.getLast?_concat _).symm
    · rw [if_neg hk]
      have : List.filter (fun fi => decide (keyOf fi = k)) [x] = [] := by
        simp [List.filter, hk]
      rw [this, List.append_nil]
      exact ih k

/-- C5: whatever the plan (including one listing the same folder key twice),
the written manifest contains each `(folder, absolute path)` pair at most
once, and the deduplicating dict is last-write-wins: after accumulation each
key maps to the last selected file that carried it. -/
theorem c5_manifest_dedup :
    (∀ (plan : List PlanRow) (fs : FS) (root : String) (seed : ℕ)
       (m : List ManifestRow),
       run_sampling plan fs root seed = Except.ok m →
       (m.map (fun r => (r.folder, r.full_path))).Nodup) ∧
    (∀ (l : List FileInfo) (k : String × String),
       lookupKey k (dedupAccum l) =
         (l.filter (fun fi => decide (keyOf fi = k))).getLast?) := by
  refine ⟨?_, dedupAccum_last_write_wins⟩
  intro plan fs root seed m hm
  unfold run_sampling runSamplingFromRng at hm
  dsimp only at hm
  cases hdl : driverLoop (build_file_index fs root plan) plan [] (mkRng seed) with
  | error e => rw [hdl] at hm; cases hm
  | ok sel =>
    rw [hdl] at hm
    injection hm with hm2
    subst hm2
    rw [List.map_map]
    unfold dedupSelected
    rw [List.map_map]
    have hcong : (dedupAccum sel).map
        (((fun r : ManifestRow => (r.folder, r.full_path)) ∘ toManifestRow) ∘
          (fun p => p.2)) =
        (dedupAccum sel).map (fun p => p.1) := by
      apply List.map_congr_left
      intro p hp
      rcases dedupAccum_mem_aux sel [] p hp with habs | ⟨hk, -⟩
      · simp at habs
      · simp only [Function.comp_apply, toManifestRow]
        exact (hk.trans rfl).symm
    rw [hcong]
    exact dedupAccum_keys_nodup_aux sel [] (by simp)

/-- C5 witness: the theorem applied to a concrete run (empty plan, empty
filesystem) whose manifest is `[]`. -/
theorem c5_witness :
    (([] : List ManifestRow).map (fun r => (r.folder, r.full_path))).Nodup :=
  c5_manifest_dedup.1 [] ⟨fun _ => false, fun _ => [], fun _ => none⟩
    "root" 42 [] rfl

/-- The labels of a successful request map are a sublist of the tail of the
fixed bucket-label sequence reachable from the accumulator. -/
lemma buildRequestedAux_labels_sublist (row : PlanRow) :
    ∀ (bs : List (String × ℚ × Option ℚ)) (acc req : List (String × ℤ)),
      buildRequestedAux row bs acc = Except.ok req →
      List.Sublist (req.map Prod.fst)
        (acc.map Prod.fst ++ bs.map (fun b => b.1)) := by
  intro bs
  induction bs with
  | nil =>
    intro acc req h
    cases h
    simp
  | cons b rest ih =>
    intro acc req h
    simp only [buildRequestedAux] at h
    have hstep : List.Sublist (acc.map Prod.fst ++ rest.map (fun b => b.1))
        (acc.map Prod.fst ++ (b :: rest).map (fun b => b.1)) := by
      simp only [List.map_cons]
      exact List.Sublist.append_left (List.sublist_cons_self _ _) _
    split at h
    · exact (ih acc req h).trans hstep
    · rename_i c hl
      split at h
      · cases h
      · rename_i n heq
        by_cases hn : 0 < n
        · rw [if_pos hn] at h
          have := ih _ req h
          simp only [List.map_append, List.map_cons, List.map_nil,
            List.map_singleton] at this
          simpa [List.append_assoc] using this
        · rw [if_neg hn] at h
          exact (ih acc req h).trans hstep

/-- C4: `run_sampling` is deterministic for a fixed seed: the generator is
created exactly once from the seed and handed to the single linear pass over
the plan (`runSamplingFromRng` folds the rows in plan order, threading the
state); equal plans, indexed files and seeds give the identical manifest;
and within each row the buckets are consumed in the fixed 8-label
`BUCKET_DEFS` order (the request map's labels always form a sublist of that
fixed sequence). -/
theorem c4_run_sampling_deterministic :
    (∀ (plan : List PlanRow) (fs : FS) (root : String) (seed : ℕ),
      run_sampling plan fs root seed =
        runSamplingFromRng plan fs root (mkRng seed)) ∧
    (∀ (plan : List PlanRow) (fs : FS) (root : String) (s1 s2 : ℕ),
      s1 = s2 → run_sampling plan fs root s1 = run_sampling plan fs root s2) ∧
    (∀ (row : PlanRow) (req : List (String × ℤ)),
      buildRequested row = Except.ok req →
      List.Sublist (req.map Prod.fst)
        (BUCKET_DEFS.map (fun b => b.1))) := by
  refine ⟨fun _ _ _ _ => rfl, fun _ _ _ _ _ h => by rw [h], ?_⟩
  intro row req h
  simpa using buildRequestedAux_labels_sublist row BUCKET_DEFS [] req h

/-- C4 witness: two runs with seed 42 on a concrete plan agree, and the
request labels of a concrete row form a sublist of the fixed label order. -/
theorem c4_witness :
    run_sampling [] ⟨fun _ => false, fun _ => [], fun _ => none⟩ "root" 42 =
      run_sampling [] ⟨fun _ => false, fun _ => [], fun _ => none⟩ "root" 42 ∧
    List.Sublist ([("[0, 1)", (2 : ℤ))].map Prod.fst)
      (BUCKET_DEFS.map (fun b => b.1)) :=
  ⟨c4_run_sampling_deterministic.2.1 [] _ "root" 42 42 rfl,
   c4_run_sampling_deterministic.2.2 ⟨"f", [("Samples [0, 1)", Cell.num 2)]⟩
     [("[0, 1)", 2)] (by rfl)⟩

/-- A folder key that does not resolve to a directory yields no files. -/
lemma find_files_ghost (fs : FS) (root key : String)
    (h : fs.isDir (pjoin root key) = false) :
    find_files_in_folder fs root key = [] := by
  unfold find_files_in_folder
  dsimp only
  rw [if_pos h]

/-- A folder key that does not resolve to a directory contributes no records
to the index. -/
lemma indexFolder_ghost (fs : FS) (root : String) (row : PlanRow)
    (h : fs.isDir (pjoin root row.folder) = false) :
    indexFolder fs root row = [] := by
  unfold indexFolder
  rw [find_files_ghost fs root row.folder h]
  rfl

/-- Every index record comes from the per-row indexing of some plan row. -/
lemma build_file_index_mem (fs : FS) (root : String) :
    ∀ (plan : List PlanRow) (fi : FileInfo),
      fi ∈ build_file_index fs root plan →
      ∃ row, row ∈ plan ∧ fi ∈ indexFolder fs root row := by
  intro plan
  induction plan with
  | nil => intro fi hfi; simp [build_file_index] at hfi
  | cons row rest ih =>
    intro fi hfi
    rcases List.mem_append.1 hfi with hrow | hrest
    · exact ⟨row, List.mem_cons_self _ _, hrow⟩
    · obtain ⟨r2, hr2, hir⟩ := ih fi hrest
      exact ⟨r2, List.mem_cons.2 (Or.inr hr2), hir⟩

/-- A record indexed for a row carries that row's folder key. -/
lemma indexFolder_folder (fs : FS) (root : String) (row : PlanRow)
    (fi : FileInfo) (h : fi ∈ indexFolder fs root row) :
    fi.folder = row.folder := by
  unfold indexFolder at h
  rcases List.mem_filterMap.1 h with ⟨f, -, hmap⟩
  split at hmap
  · cases hmap
  · injection hmap with hfi
    subst hfi
    rfl

/-- If a folder key does not resolve to a directory, no indexed file of any
plan carries it, so the folder-bucket map has no entry for it. -/
lemma ghost_no_buckets (fs : FS) (root : String) (plan : List PlanRow)
    (key : String) (h : fs.isDir (pjoin root key) = false) :
    folderHasBuckets (build_file_index fs root plan) key = false := by
  unfold folderHasBuckets
  rw [List.any_eq_false]
  intro fi hfi
  obtain ⟨row, -, hidx⟩ := build_file_index_mem fs root plan fi hfi
  have hfold : fi.folder = row.folder := indexFolder_folder fs root row fi hidx
  simp only [decide_eq_true_eq, not_and]
  intro heq
  exfalso
  have hrow : fs.isDir (pjoin root row.folder) = false := by
    rw [← hfold, heq]
    exact h
  rw [indexFolder_ghost fs root row hrow] at hidx
  simp at hidx

/-- C9: a plan row whose folder key does not resolve to a directory under
the audio root yields `[]` from `find_files_in_folder` (warning only),
contributes zero records to the file index, and is skipped by `run_sampling`
with a warning: the run produces exactly the manifest of the remaining rows,
with no fatal error. -/
theorem c9_missing_folder_skipped :
    ∀ (fs : FS) (root : String) (g : PlanRow) (rest : List PlanRow)
      (seed : ℕ) (t : Option ℤ),
      fs.isDir (pjoin root g.folder) = false →
      targetOf g = Except.ok t →
      find_files_in_folder fs root g.folder = [] ∧
      (∀ fi, fi ∈ build_file_index fs root (g :: rest) →
        fi.folder ≠ g.folder) ∧
      run_sampling (g :: rest) fs root seed = run_sampling rest fs root seed := by
  intro fs root g rest seed t hdir htgt
  have hidx : build_file_index fs root (g :: rest) =
      build_file_index fs root rest := by
    show indexFolder fs root g ++ build_file_index fs root rest = _
    rw [indexFolder_ghost fs root g hdir, List.nil_append]
  refine ⟨find_files_ghost fs root g.folder hdir, ?_, ?_⟩
  · intro fi hfi heq
    obtain ⟨row, -, hrowidx⟩ := build_file_index_mem fs root _ fi hfi
    have h1 : fi.folder = row.folder := indexFolder_folder fs root row fi hrowidx
    have h2 : fs.isDir (pjoin root row.folder) = false := by
      rw [← h1, heq]
      exact hdir
    rw [indexFolder_ghost fs root row h2] at hrowidx
    simp at hrowidx
  · unfold run_sampling runSamplingFromRng
    dsimp only
    rw [hidx]
    have hb := ghost_no_buckets fs root rest g.folder hdir
    simp only [driverLoop, htgt, hb, Bool.false_eq_true, if_false]

/-- C9 witness: a one-row plan naming a folder absent from an empty
filesystem runs to the same (empty) manifest as the empty plan. -/
theorem c9_witness :
    find_files_in_folder ⟨fun _ => false, fun _ => [], fun _ => none⟩
      "root" (PlanRow.mk "ghost" []).folder = [] ∧
    (∀ fi, fi ∈ build_file_index ⟨fun _ => false, fun _ => [], fun _ => none⟩
        "root" [PlanRow.mk "ghost" []] →
      fi.folder ≠ (PlanRow.mk "ghost" []).folder) ∧
    run_sampling [PlanRow.mk "ghost" []]
        ⟨fun _ => false, fun _ => [], fun _ => none⟩ "root" 42 =
      run_sampling [] ⟨fun _ => false, fun _ => [], fun _ => none⟩ "root" 42 :=
  c9_missing_folder_skipped ⟨fun _ => false, fun _ => [], fun _ => none⟩
    "root" (PlanRow.mk "ghost" []) [] 42 none (by rfl) (by rfl)

/-- C10: in the copy utility the `.json` sidecar copy is attempted
independently of the audio copy's outcome: on a manifest row whose source
audio file is missing but whose same-basename `.json` sidecar exists, the
audio copy is skipped (counted 0, no action), while the sidecar is still
copied to the destination and counted. -/
theorem c10_json_copied_independently :
    ∀ (fs : copy_samples.CFS) (dest_root : String) (row : copy_samples.CsvRow),
      fs.isFile (normpath row.full_path) = false →
      fs.isFile ((splitext (normpath row.full_path)).1 ++ ".json") = true →
      copy_samples.process_row fs dest_root row =
        (0, 1,
          [((splitext (normpath row.full_path)).1 ++ ".json",
            (splitext (normpath (pjoin dest_root (String.mk (replaceChar
              (replaceChar row.rel_path.toList '/' copy_samples.osSep) '\\'
              copy_samples.osSep))))).1 ++ ".json")]) := by
  intro fs dest_root row h1 h2
  unfold copy_samples.process_row copy_samples.copy_file
  dsimp only
  rw [h1, h2]
  simp

/-- C10 witness: the theorem applied to a concrete row (`/a/b.wav` missing,
`/a/b.json` present). -/
theorem c10_witness :
    copy_samples.process_row
        ⟨fun s => decide (s = "/a/b.json")⟩ "/d" ⟨"b.wav", "/a/b.wav"⟩ =
      (0, 1,
        [((splitext (normpath "/a/b.wav")).1 ++ ".json",
          (splitext (normpath (pjoin "/d" (String.mk (replaceChar
            (replaceChar (String.toList "b.wav") '/' copy_samples.osSep) '\\'
            copy_samples.osSep))))).1 ++ ".json")]) :=
  c10_json_copied_independently ⟨fun s => decide (s = "/a/b.json")⟩ "/d"
    ⟨"b.wav", "/a/b.wav"⟩ (by rfl) (by rfl)
